import Mathlib

/-!
Shallow embedding of `rss_daily_pipeline.py` (feed parsing, uid computation,
seen-set deduplication, feed-cache updates, article-page metadata extraction,
and the per-item processing loop of `run_pipeline`), together with theorems
settling the specification claims about it.

Python values of type `Optional[str]` are modelled as `Option String`;
Python dictionaries with string keys and optional-string values (the "item"
dictionaries of the pipeline) are modelled as association lists in insertion
order, with first-match lookup, mirroring CPython dict semantics (assignment
to an existing key keeps its position, assignment to a fresh key appends).
Library functions used by the source (`html.unescape`, `re` patterns,
`hashlib.sha256`, `json.dumps`) are modelled explicitly below; each model's
doc comment states its scope.
-/

namespace Rss

/-! ## Python string primitives -/

/-- Models Python's `\s` / `str.strip` whitespace test, restricted to the ASCII
whitespace characters (space, tab, newline, carriage return, vertical tab,
form feed).  The Python originals also accept rarer Unicode whitespace. -/
def pyIsSpace (c : Char) : Bool :=
  c = ' ' || c = '\t' || c = '\n' || c = '\x0d' || c = '\x0b' || c = '\x0c'

/-- Python `str.strip()` on a character list. -/
def pyStripList (l : List Char) : List Char :=
  ((l.dropWhile pyIsSpace).reverse.dropWhile pyIsSpace).reverse

/-- Python `str.strip()`. -/
def pyStrip (s : String) : String :=
  ⟨pyStripList s.data⟩

/-- `re.sub(r'\s+', ' ', s)`: replace every maximal whitespace run by a single
space.  The boolean argument records whether the previous character was part
of a whitespace run. -/
def collapseWsAux : Bool → List Char → List Char
  | _, [] => []
  | inRun, c :: rest =>
    if pyIsSpace c then
      if inRun then collapseWsAux true rest
      else ' ' :: collapseWsAux true rest
    else c :: collapseWsAux false rest

/-- `re.sub(r'\s+', ' ', s)`. -/
def collapseWs (s : String) : String :=
  ⟨collapseWsAux false s.data⟩

/-- Named HTML entity table.  Models the entities relevant to feed text;
Python's `html.unescape` knows the full HTML5 table. -/
def namedEntity (name : List Char) : Option (List Char) :=
  if name = "amp".data then some "&".data
  else if name = "lt".data then some "<".data
  else if name = "gt".data then some ">".data
  else if name = "quot".data then some "\"".data
  else if name = "apos".data then some "'".data
  else if name = "nbsp".data then some [Char.ofNat 0xA0]
  else none

/-- Decode a decimal digit list. -/
def decDigits? (l : List Char) : Option Nat :=
  if l ≠ [] ∧ l.all Char.isDigit then
    some (l.foldl (fun acc c => acc * 10 + (c.toNat - 48)) 0)
  else none

/-- Decode a hexadecimal digit list. -/
def hexDigits? (l : List Char) : Option Nat :=
  if l ≠ [] ∧ l.all (fun c => c.isDigit || ('a' ≤ c ∧ c ≤ 'f') || ('A' ≤ c ∧ c ≤ 'F')) then
    some (l.foldl (fun acc c =>
      acc * 16 + (if c.isDigit then c.toNat - 48
                  else if 'a' ≤ c then c.toNat - 87 else c.toNat - 55)) 0)
  else none

/-- Decode one `&...;` entity body (between the ampersand and the semicolon):
named entity, `#ddd` decimal or `#xhh` hexadecimal character reference. -/
def entityBody? (body : List Char) : Option (List Char) :=
  match body with
  | '#' :: 'x' :: hs => (hexDigits? hs).bind fun n =>
      if n < 0xD800 ∨ (0xE000 ≤ n ∧ n ≤ 0x10FFFF) then some [Char.ofNat n] else none
  | '#' :: 'X' :: hs => (hexDigits? hs).bind fun n =>
      if n < 0xD800 ∨ (0xE000 ≤ n ∧ n ≤ 0x10FFFF) then some [Char.ofNat n] else none
  | '#' :: ds => (decDigits? ds).bind fun n =>
      if n < 0xD800 ∨ (0xE000 ≤ n ∧ n ≤ 0x10FFFF) then some [Char.ofNat n] else none
  | _ => namedEntity body

/-- Models Python `html.unescape`, restricted to semicolon-terminated named
entities from `namedEntity` and numeric character references.  Unrecognized
ampersand sequences are left unchanged.  The fuel argument (any bound on the
list length; every step consumes at least one character) makes the recursion
structural. -/
def unescapeAux : Nat → List Char → List Char
  | 0, l => l
  | _ + 1, [] => []
  | fuel + 1, '&' :: rest =>
    match rest.drop ((rest.takeWhile (fun c => c ≠ ';' ∧ c ≠ '&')).length) with
    | ';' :: after =>
      match entityBody? (rest.takeWhile (fun c => c ≠ ';' ∧ c ≠ '&')) with
      | some repl => repl ++ unescapeAux fuel after
      | none => '&' :: unescapeAux fuel rest
    | _ => '&' :: unescapeAux fuel rest
  | fuel + 1, c :: rest => c :: unescapeAux fuel rest

/-- Models Python `html.unescape` (scope as in `unescapeAux`). -/
def pyUnescape (s : String) : String :=
  ⟨unescapeAux s.data.length s.data⟩

/-- `clean_text` (source lines 71-76): unescape HTML entities, collapse
whitespace runs to single spaces, and strip; `None` passes through. -/
def clean_text : Option String → Option String
  | none => none
  | some s => some (pyStrip (collapseWs (pyUnescape s)))

/-- Python truthiness of an `Optional[str]`: `None` and the empty string are
falsy. -/
def truthyS : Option String → Bool
  | none => false
  | some s => !s.isEmpty

/-- Python `a or b` on `Optional[str]` values: the first operand if truthy,
otherwise the second operand (which is returned as-is even if falsy). -/
def pyOrS (a b : Option String) : Option String :=
  if truthyS a then a else b

/-- Python `s.lower()`, modelled for ASCII letters (`Char.toLower`). -/
def pyLower (s : String) : String :=
  ⟨s.data.map Char.toLower⟩

/-- Python slicing `s[:n]` on a string. -/
def pyTake (n : Nat) (s : String) : String :=
  ⟨s.data.take n⟩

/-- Whether the first list is a prefix of the second. -/
def listStartsWithCh : List Char → List Char → Bool
  | [], _ => true
  | _ :: _, [] => false
  | a :: as, b :: bs => a = b && listStartsWithCh as bs

/-- Whether the first list occurs as a contiguous sublist of the second. -/
def listInfix (sub : List Char) : List Char → Bool
  | [] => listStartsWithCh sub []
  | c :: rest => listStartsWithCh sub (c :: rest) || listInfix sub rest

/-- Python `sub in s` substring containment. -/
def containsSub (s sub : String) : Bool :=
  listInfix sub.data s.data

/-! ## Item dictionaries

The pipeline's per-entry dictionaries (`Dict[str, Optional[str]]`) are
modelled as association lists in insertion order. -/

/-- A Python `Dict[str, Optional[str]]` in insertion order. -/
abbrev Item : Type := List (String × Option String)

/-- Python `d.get(key)`: the stored value of the first matching key (which may
itself be `None`), or `None` when the key is absent. -/
def dget : Item → String → Option String
  | [], _ => none
  | (k, v) :: rest, key => if k = key then v else dget rest key

/-- Python `key in d`. -/
def hasKey : Item → String → Bool
  | [], _ => false
  | (k, _) :: rest, key => k = key || hasKey rest key

/-- Python `d[key] = v`: replace in place if the key exists, else append. -/
def setItem : Item → String → Option String → Item
  | [], key, v => [(key, v)]
  | (k, w) :: rest, key, v =>
    if k = key then (key, v) :: rest else (k, w) :: setItem rest key v

/-- Python `d.setdefault(key, v)`: insert `key → v` (even if `v` is falsy)
only when the key is absent. -/
def setdefault (d : Item) (key : String) (v : Option String) : Item :=
  if hasKey d key then d else d ++ [(key, v)]

/-! ## JSON serialization (`json.dumps`) -/

/-- Lowercase hexadecimal digit. -/
def hexDig (n : Nat) : Char :=
  "0123456789abcdef".data.getD n '0'

/-- Four-digit hexadecimal rendering (for `\uXXXX` escapes). -/
def hex4 (n : Nat) : String :=
  ⟨[hexDig ((n >>> 12) % 16), hexDig ((n >>> 8) % 16), hexDig ((n >>> 4) % 16), hexDig (n % 16)]⟩

/-- One character of Python `json` string escaping.  With `ascii = true` this
models the default `ensure_ascii=True` (non-ASCII escaped as `\uXXXX`, using
surrogate pairs above the BMP); with `ascii = false` only the mandatory
escapes are applied. -/
def jsonEscChar (ascii : Bool) (c : Char) : String :=
  if c = '"' then "\\\""
  else if c = '\\' then "\\\\"
  else if c = '\n' then "\\n"
  else if c = '\x0d' then "\\r"
  else if c = '\t' then "\\t"
  else if c.toNat = 8 then "\\b"
  else if c.toNat = 12 then "\\f"
  else if c.toNat < 0x20 then "\\u" ++ hex4 c.toNat
  else if ascii && decide (c.toNat > 0x7E) then
    if c.toNat < 0x10000 then "\\u" ++ hex4 c.toNat
    else
      let v := c.toNat - 0x10000
      "\\u" ++ hex4 (0xD800 + (v >>> 10)) ++ "\\u" ++ hex4 (0xDC00 + (v &&& 0x3FF))
  else String.singleton c

/-- Python `json` string-body escaping. -/
def jsonEscStr (ascii : Bool) (s : String) : String :=
  s.data.foldr (fun c acc => jsonEscChar ascii c ++ acc) ""

/-- Join strings with a separator (Python `sep.join`). -/
def joinSep (sep : String) : List String → String
  | [] => ""
  | [x] => x
  | x :: y :: rest => x ++ sep ++ joinSep sep (y :: rest)

/-- Render an `Optional[str]` JSON value (`ensure_ascii=True`). -/
def jsonValStr : Option String → String
  | none => "null"
  | some s => "\"" ++ jsonEscStr true s ++ "\""

/-- Key order used by `json.dumps(..., sort_keys=True)`. -/
def keyLe (a b : String × Option String) : Prop := a.1 ≤ b.1

instance : DecidableRel keyLe := fun a b => by unfold keyLe; infer_instance

instance : IsTotal (String × Option String) keyLe := ⟨fun a b => le_total a.1 b.1⟩

instance : IsTrans (String × Option String) keyLe := ⟨fun _ _ _ h h' => le_trans h h'⟩

/-- `json.dumps(item, sort_keys=True)` for a `Dict[str, Optional[str]]`:
keys sorted, default separators `", "` and `": "`, `ensure_ascii=True`. -/
def jsonDumps (d : Item) : String :=
  let sorted := List.insertionSort keyLe d
  "\x7b" ++ joinSep ", " (sorted.map (fun kv => "\"" ++ jsonEscStr true kv.1 ++ "\": " ++ jsonValStr kv.2)) ++ "\x7d"

/-! ## SHA-256 (`hashlib.sha256(...).hexdigest()`) -/

/-- UTF-8 encoding of one character (Python `str.encode("utf-8")`; Lean
`Char` excludes surrogates, the only code points the source's `"ignore"`
error handler would drop). -/
def utf8Char (c : Char) : List Nat :=
  let n := c.toNat
  if n < 0x80 then [n]
  else if n < 0x800 then [0xC0 ||| (n >>> 6), 0x80 ||| (n &&& 0x3F)]
  else if n < 0x10000 then
    [0xE0 ||| (n >>> 12), 0x80 ||| ((n >>> 6) &&& 0x3F), 0x80 ||| (n &&& 0x3F)]
  else
    [0xF0 ||| (n >>> 18), 0x80 ||| ((n >>> 12) &&& 0x3F),
     0x80 ||| ((n >>> 6) &&& 0x3F), 0x80 ||| (n &&& 0x3F)]

/-- UTF-8 encoding of a string as a byte list. -/
def utf8 (s : String) : List Nat :=
  s.data.foldr (fun c acc => utf8Char c ++ acc) []

/-- 32-bit truncation. -/
def m32 (n : Nat) : Nat := n % 4294967296

/-- 32-bit right rotation. -/
def rotr (n x : Nat) : Nat :=
  m32 ((x >>> n) ||| (x <<< (32 - n)))

/-- 32-bit bitwise complement. -/
def bnot32 (x : Nat) : Nat := x ^^^ 0xFFFFFFFF

/-- The eight working variables / hash state of SHA-256. -/
structure Hash8 where
  a : Nat
  b : Nat
  c : Nat
  d : Nat
  e : Nat
  f : Nat
  g : Nat
  h : Nat

/-- SHA-256 initial hash value (FIPS 180-4 section 5.3.3, rendered in
decimal). -/
def sha256Init : Hash8 :=
  ⟨1779033703, 3144134277, 1013904242, 2773480762,
   1359893119, 2600822924, 528734635, 1541459225⟩

/-- SHA-256 round constants (FIPS 180-4 section 4.2.2, rendered in
decimal). -/
def sha256K : List Nat :=
  [1116352408, 1899447441, 3049323471, 3921009573, 961987163, 1508970993,
   2453635748, 2870763221, 3624381080, 310598401, 607225278, 1426881987,
   1925078388, 2162078206, 2614888103, 3248222580, 3835390401, 4022224774,
   264347078, 604807628, 770255983, 1249150122, 1555081692, 1996064986,
   2554220882, 2821834349, 2952996808, 3210313671, 3336571891, 3584528711,
   113926993, 338241895, 666307205, 773529912, 1294757372, 1396182291,
   1695183700, 1986661051, 2177026350, 2456956037, 2730485921, 2820302411,
   3259730800, 3345764771, 3516065817, 3600352804, 4094571909, 275423344,
   430227734, 506948616, 659060556, 883997877, 958139571, 1322822218,
   1537002063, 1747873779, 1955562222, 2024104815, 2227730452, 2361852424,
   2428436474, 2756734187, 3204031479, 3329325298]

/-- Big-endian 64-bit byte rendering of the message bit length. -/
def be64 (n : Nat) : List Nat :=
  [(n >>> 56) % 256, (n >>> 48) % 256, (n >>> 40) % 256, (n >>> 32) % 256,
   (n >>> 24) % 256, (n >>> 16) % 256, (n >>> 8) % 256, n % 256]

/-- SHA-256 padding: append `0x80`, zero bytes to 56 mod 64, then the
big-endian 64-bit bit length. -/
def sha256Pad (msg : List Nat) : List Nat :=
  let l := msg.length
  let zeros := (120 - ((l + 1) % 64)) % 64
  msg ++ [0x80] ++ List.replicate zeros 0 ++ be64 (8 * l)

/-- Split a byte list into 64-byte blocks. -/
def toBlocks (l : List Nat) : List (List Nat) :=
  match l with
  | [] => []
  | x :: rest => ((x :: rest).take 64) :: toBlocks ((x :: rest).drop 64)
termination_by l.length
decreasing_by simp [List.length_drop]; omega

/-- The sixteen big-endian 32-bit words of one 64-byte block. -/
def blockWords (b : List Nat) : List Nat :=
  (List.range 16).map (fun i =>
    (b.getD (4 * i) 0) <<< 24 ||| (b.getD (4 * i + 1) 0) <<< 16 |||
    (b.getD (4 * i + 2) 0) <<< 8 ||| (b.getD (4 * i + 3) 0))

/-- SHA-256 message schedule: extend sixteen words to sixty-four. -/
def sha256Schedule (ws : List Nat) : List Nat :=
  let arr := (List.range 48).foldl (fun (w : Array Nat) _ =>
    let i := w.size
    let s0 :=
      rotr 7 (w.getD (i - 15) 0) ^^^ rotr 18 (w.getD (i - 15) 0) ^^^ ((w.getD (i - 15) 0) >>> 3)
    let s1 :=
      rotr 17 (w.getD (i - 2) 0) ^^^ rotr 19 (w.getD (i - 2) 0) ^^^ ((w.getD (i - 2) 0) >>> 10)
    w.push (m32 (w.getD (i - 16) 0 + s0 + w.getD (i - 7) 0 + s1))) ws.toArray
  arr.toList

/-- One SHA-256 round: `kw` is the pair of round constant and schedule word. -/
def sha256Round (st : Hash8) (kw : Nat × Nat) : Hash8 :=
  let s1 := rotr 6 st.e ^^^ rotr 11 st.e ^^^ rotr 25 st.e
  let ch := (st.e &&& st.f) ^^^ (bnot32 st.e &&& st.g)
  let temp1 := m32 (st.h + s1 + ch + kw.1 + kw.2)
  let s0 := rotr 2 st.a ^^^ rotr 13 st.a ^^^ rotr 22 st.a
  let maj := (st.a &&& st.b) ^^^ (st.a &&& st.c) ^^^ (st.b &&& st.c)
  let temp2 := m32 (s0 + maj)
  ⟨m32 (temp1 + temp2), st.a, st.b, st.c, m32 (st.d + temp1), st.e, st.f, st.g⟩

/-- Process one 64-byte block. -/
def sha256Block (h : Hash8) (block : List Nat) : Hash8 :=
  let w := sha256Schedule (blockWords block)
  let st := (sha256K.zip w).foldl sha256Round h
  ⟨m32 (h.a + st.a), m32 (h.b + st.b), m32 (h.c + st.c), m32 (h.d + st.d),
   m32 (h.e + st.e), m32 (h.f + st.f), m32 (h.g + st.g), m32 (h.h + st.h)⟩

/-- SHA-256 of a byte list, as the final eight-word state. -/
def sha256Words (msg : List Nat) : Hash8 :=
  (toBlocks (sha256Pad msg)).foldl sha256Block sha256Init

/-- Eight-hex-digit rendering of one 32-bit word. -/
def toHex8 (w : Nat) : String :=
  ⟨[hexDig ((w >>> 28) % 16), hexDig ((w >>> 24) % 16), hexDig ((w >>> 20) % 16),
    hexDig ((w >>> 16) % 16), hexDig ((w >>> 12) % 16), hexDig ((w >>> 8) % 16),
    hexDig ((w >>> 4) % 16), hexDig (w % 16)]⟩

/-- `sha256` (source lines 63-66): hex digest of the UTF-8 encoding of a
string (`hashlib.sha256(text.encode("utf-8", "ignore")).hexdigest()`). -/
def sha256hex (s : String) : String :=
  let h := sha256Words (utf8 s)
  toHex8 h.a ++ toHex8 h.b ++ toHex8 h.c ++ toHex8 h.d ++
  toHex8 h.e ++ toHex8 h.f ++ toHex8 h.g ++ toHex8 h.h

/-! ## DOI pattern matching (`re` models) -/

/-- Python regex `\w` word character, ASCII range (the DOI scans only meet
ASCII input). -/
def isWordChar (c : Char) : Bool :=
  c.isAlpha || c.isDigit || c = '_'

/-- The character class `[^\s<>"\x27]` of the `guess_doi` pattern
(`\x27` is the apostrophe). -/
def doiCharOk (c : Char) : Bool :=
  !pyIsSpace c && c ≠ '<' && c ≠ '>' && c ≠ '"' && c ≠ (Char.ofNat 39)

/-- Match `10\.\d{4,9}/BODY+` anchored at the start of the list, where `BODY`
is the given character class; returns the matched characters.  The greedy
`\d{4,9}` with backtracking succeeds exactly when the full leading digit run
has length 4-9 and is followed by `/` (any shorter digit prefix is followed
by a digit, not `/`, so backtracking cannot help). -/
def doiMatchAt (bodyOk : Char → Bool) (l : List Char) : Option (List Char) :=
  match l with
  | '1' :: '0' :: '.' :: rest =>
    let digits := rest.takeWhile Char.isDigit
    if 4 ≤ digits.length ∧ digits.length ≤ 9 then
      match rest.drop digits.length with
      | '/' :: tail =>
        let body := tail.takeWhile bodyOk
        if body.isEmpty then none
        else some ('1' :: '0' :: '.' :: (digits ++ '/' :: body))
      | _ => none
    else none
  | _ => none

/-- `re.search(r'\b(10\.\d{4,9}/[^\s<>"\x27]+)', s)`: leftmost match; the
boolean argument tracks whether the previous character was a word character
(for the `\b` boundary before the word character `1`). -/
def doiSearchB : Bool → List Char → Option (List Char)
  | _, [] => none
  | prevWord, c :: rest =>
    if !prevWord then
      match doiMatchAt doiCharOk (c :: rest) with
      | some m => some m
      | none => doiSearchB (isWordChar c) rest
    else doiSearchB (isWordChar c) rest

/-- Python `s.rstrip(chars)`. -/
def rstripSet (s : String) (set : List Char) : String :=
  ⟨(s.data.reverse.dropWhile (fun c => set.contains c)).reverse⟩

/-- `guess_doi` (source lines 166-173): scan the candidates in order, skip
falsy ones, and return the first candidate's DOI-pattern match trimmed of
trailing `).,;` characters. -/
def guess_doi : List (Option String) → Option String
  | [] => none
  | c :: rest =>
    if truthyS c then
      match doiSearchB false (c.getD "").data with
      | some m => some (rstripSet ⟨m⟩ [')', '.', ',', ';'])
      | none => guess_doi rest
    else guess_doi rest

/-- `re.search(r'10\.\d{4,9}/\S+', s)` used inside `extract_from_jsonld`
(no word boundary, no trailing trim): leftmost match. -/
def doiSearchPlain : List Char → Option (List Char)
  | [] => none
  | c :: rest =>
    match doiMatchAt (fun ch => !pyIsSpace ch) (c :: rest) with
    | some m => some m
    | none => doiSearchPlain rest

/-! ## XML element-tree model and `parse_feed` -/

/-- An already-parsed XML element, as `xml.etree.ElementTree` presents it:
fully-qualified tag (namespaced tags are written `{uri}local`), attribute
list, the `.text` content, and child elements.  XML entity decoding is part
of parsing and is already applied in `text`. -/
inductive XmlNode : Type where
  | mk : String → List (String × String) → Option String → List XmlNode → XmlNode

def XmlNode.tag : XmlNode → String
  | .mk t _ _ _ => t

def XmlNode.attribs : XmlNode → List (String × String)
  | .mk _ a _ _ => a

def XmlNode.text : XmlNode → Option String
  | .mk _ _ t _ => t

def XmlNode.children : XmlNode → List XmlNode
  | .mk _ _ _ c => c

/-- `element.get(key)`: attribute lookup. -/
def XmlNode.attrGet (n : XmlNode) (k : String) : Option String :=
  (n.attribs.find? (fun a => a.1 == k)).map (fun a => a.2)

/-- `element.findall(tag)`: the direct children with the given
(already-resolved) tag, in document order. -/
def XmlNode.findall (n : XmlNode) (t : String) : List XmlNode :=
  n.children.filter (fun c => c.tag == t)

/-- `element.find(tag)`: the first direct child with the given tag. -/
def XmlNode.find (n : XmlNode) (t : String) : Option XmlNode :=
  n.children.find? (fun c => c.tag == t)

/-- `element.find('tag[@key="value"]')`: the first direct child with the
given tag carrying the given attribute value. -/
def XmlNode.findWithAttr (n : XmlNode) (t k v : String) : Option XmlNode :=
  n.children.find? (fun c => c.tag == t && c.attrGet k == some v)

/-- The `NS` namespace map (source lines 137-145). -/
def NS : List (String × String) :=
  [("rdf", "http://www.w3.org/1999/02/22-rdf-syntax-ns#"),
   ("rss", "http://purl.org/rss/1.0/"),
   ("dc", "http://purl.org/dc/elements/1.1/"),
   ("content", "http://purl.org/rss/1.0/modules/content/"),
   ("prism", "http://prismstandard.org/namespaces/basic/2.0/"),
   ("admin", "http://webns.net/mvcb/"),
   ("atom", "http://www.w3.org/2005/Atom")]

/-- Split a path on `:` (the behavior of `splitOn ":"` for the namespace
paths used here). -/
def splitColonAux : List Char → List Char → List String
  | acc, [] => [⟨acc.reverse⟩]
  | acc, ':' :: rest => (⟨acc.reverse⟩ : String) :: splitColonAux [] rest
  | acc, c :: rest => splitColonAux (c :: acc) rest

/-- Resolve a `prefix:local` path component through `NS`, as ElementTree does
for `find`/`findall` calls carrying the namespace map. -/
def resolveTag (p : String) : String :=
  match splitColonAux [] p.data with
  | [pre, loc] =>
    match NS.find? (fun e => e.1 == pre) with
    | some e => "\x7b" ++ e.2 ++ "\x7d" ++ loc
    | none => p
  | _ => p

/-- `root.tag.split('}', 1)[-1] if '}' in root.tag else root.tag`
(source line 178). -/
def localName (t : String) : String :=
  if t.data.contains (Char.ofNat 125) then
    ⟨(t.data.dropWhile (fun c => c ≠ Char.ofNat 125)).drop 1⟩
  else t

/-- `xml_text` (source lines 163-164): `node.text.strip()` when the node
exists and its text is truthy, else `None`. -/
def xml_text (n : Option XmlNode) : Option String :=
  match n with
  | some node =>
    match node.text with
    | some t => if t.isEmpty then none else some (pyStrip t)
    | none => none
  | none => none

/-- Python `a or b` on `Optional[Element]` values.  ElementTree elements are
falsy when they have no children (legacy `Element.__bool__`), which the
source's `link_el = entry.find(...) or entry.find('link')` relies on. -/
def pyOrEl (a b : Option XmlNode) : Option XmlNode :=
  match a with
  | some el => if el.children.isEmpty then b else some el
  | none => b

/-- The `add_item` normalization inside `parse_feed` (source lines 181-188):
`title`, `pub_date`, `doi` and `journal` pass through `clean_text`; `link`
and `id_like` are stored as extracted. -/
def add_item (d : Item) : Item :=
  let d := setItem d "title" (clean_text (dget d "title"))
  let d := setItem d "link" (dget d "link")
  let d := setItem d "id_like" (dget d "id_like")
  let d := setItem d "pub_date" (clean_text (dget d "pub_date"))
  let d := setItem d "doi" (clean_text (dget d "doi"))
  let d := setItem d "journal" (clean_text (dget d "journal"))
  d

/-- The RDF `about` attribute key `f'{{{NS["rdf"]}}}about'`. -/
def rdfAbout : String :=
  "\x7bhttp://www.w3.org/1999/02/22-rdf-syntax-ns#\x7dabout"

/-- One RSS 1.0 / RDF item (source lines 192-207). -/
def parseRdfItem (item : XmlNode) : Item :=
  let title := pyOrS (xml_text (item.find (resolveTag "rss:title")))
                     (xml_text (item.find (resolveTag "dc:title")))
  let link := xml_text (item.find (resolveTag "rss:link"))
  let about := item.attrGet rdfAbout
  let dc_date := xml_text (item.find (resolveTag "dc:date"))
  let prism_doi := xml_text (item.find (resolveTag "prism:doi"))
  let prism_publicationName := xml_text (item.find (resolveTag "prism:publicationName"))
  let dc_identifier := xml_text (item.find (resolveTag "dc:identifier"))
  add_item
    [("title", title),
     ("link", link),
     ("id_like", pyOrS about (pyOrS dc_identifier link)),
     ("pub_date", dc_date),
     ("doi", pyOrS prism_doi (guess_doi [dc_identifier, link])),
     ("journal", prism_publicationName)]

/-- One RSS 2.0 item (source lines 213-226). -/
def parseRss2Item (item : XmlNode) : Item :=
  let title := pyOrS (xml_text (item.find "title"))
                     (xml_text (item.find (resolveTag "dc:title")))
  let link := xml_text (item.find "link")
  let guid := xml_text (item.find "guid")
  let pubDate := pyOrS (xml_text (item.find "pubDate"))
                       (xml_text (item.find (resolveTag "dc:date")))
  let description := xml_text (item.find "description")
  add_item
    [("title", title),
     ("link", link),
     ("id_like", pyOrS guid link),
     ("pub_date", pubDate),
     ("doi", guess_doi [guid, description, link]),
     ("journal", none)]

/-- One Atom entry (source lines 232-246). -/
def parseAtomEntry (entry : XmlNode) : Item :=
  let title := pyOrS (xml_text (entry.find (resolveTag "atom:title")))
                     (xml_text (entry.find "title"))
  let link_el := pyOrEl (entry.findWithAttr (resolveTag "atom:link") "rel" "alternate")
                        (entry.find "link")
  let link := match link_el with
    | some el => el.attrGet "href"
    | none => none
  let entry_id := pyOrS (xml_text (entry.find (resolveTag "atom:id")))
                        (xml_text (entry.find "id"))
  let published := pyOrS (xml_text (entry.find (resolveTag "atom:published")))
                         (xml_text (entry.find "published"))
  let updated := pyOrS (xml_text (entry.find (resolveTag "atom:updated")))
                       (xml_text (entry.find "updated"))
  add_item
    [("title", title),
     ("link", link),
     ("id_like", pyOrS entry_id link),
     ("pub_date", pyOrS published updated),
     ("doi", guess_doi [entry_id, link]),
     ("journal", none)]

/-- `parse_feed` (source lines 175-249) over an already-parsed XML root:
dialect detection by root tag / probe children, then per-dialect item
extraction.  An unrecognized root yields the empty list. -/
def parse_feed (root : XmlNode) : List Item :=
  let tag := localName root.tag
  if tag == "RDF" || (root.find (resolveTag "rss:channel")).isSome then
    (root.findall (resolveTag "rss:item")).map parseRdfItem
  else if tag == "rss" || (root.find "channel").isSome then
    match root.find "channel" with
    | some channel => (channel.findall "item").map parseRss2Item
    | none => []
  else if tag == "feed" || (root.find (resolveTag "atom:feed")).isSome then
    let entries :=
      let a := root.findall (resolveTag "atom:entry")
      if a.isEmpty then root.findall "entry" else a
    entries.map parseAtomEntry
  else []

/-! ## Article-page model and layered extraction

`BeautifulSoup` parsing is external; an article page is modelled at the
parsed level as the data the extractor consumes: the parsed contents of the
`application/ld+json` script blocks (`none` for a block `json.loads`
rejects), the `meta` tags, and the document elements in document order. -/

/-- A parsed JSON value. -/
inductive JVal : Type where
  | jstr : String → JVal
  | jnum : Int → JVal
  | jbool : Bool → JVal
  | jnull : JVal
  | jarr : List JVal → JVal
  | jobj : List (String × JVal) → JVal

/-- First-match association lookup in a JSON object body. -/
def assocJ : List (String × JVal) → String → Option JVal
  | [], _ => none
  | (k, v) :: rest, key => if k = key then some v else assocJ rest key

/-- Python `d.get(key)` on a JSON value.  The pipeline only calls `.get` on
dictionaries; on any other shape Python would raise, which no modelled flow
reaches, and the model returns `None`. -/
def Jget : JVal → String → Option JVal
  | .jobj l, k => assocJ l k
  | _, _ => none

/-- Python truthiness of a JSON value. -/
def jvTruthy : JVal → Bool
  | .jstr s => !s.isEmpty
  | .jnum n => n != 0
  | .jbool b => b
  | .jnull => false
  | .jarr l => !l.isEmpty
  | .jobj l => !l.isEmpty

/-- Python `a or b` on optional JSON values. -/
def pyOrJ (a b : Option JVal) : Option JVal :=
  match a with
  | some v => if jvTruthy v then some v else b
  | none => b

/-- Narrow an optional JSON value to a string.  The source feeds these values
to `clean_text`, which raises on non-string input; no modelled flow carries a
non-string here, and the model returns `None` for one. -/
def jStrOpt : Option JVal → Option String
  | some (.jstr s) => some s
  | _ => none

/-- A `meta` tag: `name` attribute, `property` attribute, `content`
attribute. -/
structure MetaTag : Type where
  nameAttr : Option String
  propAttr : Option String
  content : Option String
deriving DecidableEq

/-- A document element for the heuristic abstract search: tag name, `id`
attribute, class list, and its `get_text(" ")` text content. -/
structure Element : Type where
  tagName : String
  idAttr : Option String
  classes : List String
  textContent : String
deriving DecidableEq

/-- A parsed article page (see section comment). -/
structure Soup : Type where
  scripts : List (Option JVal)
  metas : List MetaTag
  elements : List Element

/-- `select_meta` (source lines 256-260): the first `meta` tag with the given
`name`; its stripped `content` when that attribute is truthy, else `None`. -/
def select_meta (soup : Soup) (nm : String) : Option String :=
  match soup.metas.find? (fun m => m.nameAttr == some nm) with
  | some el =>
    match el.content with
    | some c => if c.isEmpty then none else some (pyStrip c)
    | none => none
  | none => none

/-- `parse_jsonld` (source lines 262-273): concatenate the parsed script
blocks, extending with list contents, appending dictionaries, and skipping
malformed blocks and other JSON shapes. -/
def parse_jsonld (soup : Soup) : List JVal :=
  soup.scripts.foldl (fun acc s =>
    match s with
    | none => acc
    | some (.jarr l) => acc ++ l
    | some (.jobj o) => acc ++ [.jobj o]
    | some _ => acc) []

/-- `pick_article_obj` (source lines 275-282): the first block whose `@type`
(or `type`), unwrapped from a list if necessary, is `Article`,
`ScholarlyArticle` or `NewsArticle`. -/
def pick_article_obj : List JVal → Option JVal
  | [] => none
  | obj :: rest =>
    let t := pyOrJ (Jget obj "@type") (Jget obj "type")
    let t := match t with
      | some (.jarr (x :: _)) => some x
      | some (.jarr []) => none
      | x => x
    let isArticle := match t with
      | some (.jstr s) => s == "Article" || s == "ScholarlyArticle" || s == "NewsArticle"
      | _ => false
    if isArticle then some obj else pick_article_obj rest

/-- The `identifier` handling of `extract_from_jsonld` (source lines
291-304): unwrap a dictionary to `value`/`@id`, then scan a list (strings or
dictionaries) or a plain string for the first `10\.\d{4,9}/\S+` match. -/
def identifierDoi (obj : JVal) : Option String :=
  let ident := Jget obj "identifier"
  let ident := match ident with
    | some (.jobj l) => pyOrJ (assocJ l "value") (assocJ l "@id")
    | x => x
  match ident with
  | some (.jarr items) => identifierDoiList items
  | some (.jstr s) =>
    if containsSub s "10." then (doiSearchPlain s.data).map (fun m => (⟨m⟩ : String))
    else none
  | _ => none
where
  /-- The `for it in ident` loop: each element is taken as-is when a string,
  else unwrapped from `value`/`@id`; the first element whose string contains
  a `10\.\d{4,9}/\S+` match supplies the DOI. -/
  identifierDoiList : List JVal → Option String
  | [] => none
  | it :: rest =>
    let s : Option String := match it with
      | .jstr s => some s
      | .jobj l => jStrOpt (pyOrJ (assocJ l "value") (assocJ l "@id"))
      | _ => none
    match s with
    | some s =>
      if truthyS (some s) && containsSub s "10." then
        match doiSearchPlain s.data with
        | some m => some (⟨m⟩ : String)
        | none => identifierDoiList rest
      else identifierDoiList rest
    | none => identifierDoiList rest

/-- `extract_from_jsonld` (source lines 284-320): pull title, abstract, date,
journal, type and DOI out of one structured-data object.  Every key of the
result is always present (possibly holding `None`). -/
def extract_from_jsonld (obj : JVal) : Item :=
  let title := pyOrJ (Jget obj "headline") (Jget obj "name")
  let abstract := pyOrJ (Jget obj "abstract") (Jget obj "description")
  let date_published := pyOrJ (Jget obj "datePublished") (Jget obj "dateCreated")
  let atype := pyOrJ (Jget obj "articleSection") (Jget obj "type")
  let doi := identifierDoi obj
  let journal : Option JVal := match Jget obj "isPartOf" with
    | some (.jobj l) => pyOrJ (assocJ l "name") none
    | _ => none
  let journal := match Jget obj "publisher" with
    | some (.jobj l) => pyOrJ journal (assocJ l "name")
    | _ => journal
  [("title", clean_text (jStrOpt title)),
   ("abstract", clean_text (jStrOpt abstract)),
   ("date_published", clean_text (jStrOpt date_published)),
   ("journal", clean_text (jStrOpt journal)),
   ("type", clean_text (jStrOpt atype)),
   ("doi", clean_text doi)]

/-- The first heuristic abstract container (source lines 336-338): an element
with tag `section`/`div`/`p` whose truthy `id` contains `abstract`
(case-insensitively); failing that, a `section`/`div` element one of whose
class names contains `abstract`. -/
def heuristic_abstract_el (soup : Soup) : Option Element :=
  let byId := soup.elements.find? (fun e =>
    (e.tagName == "section" || e.tagName == "div" || e.tagName == "p") &&
    (match e.idAttr with
     | some i => !i.isEmpty && containsSub (pyLower i) "abstract"
     | none => false))
  match byId with
  | some el => some el
  | none =>
    soup.elements.find? (fun e =>
      (e.tagName == "section" || e.tagName == "div") &&
      e.classes.any (fun c => containsSub (pyLower c) "abstract"))

/-- The `og:description` fallback (source lines 340-342): the first `meta`
tag with `property="og:description"` and truthy content. -/
def og_description (soup : Soup) : Option String :=
  match soup.metas.find? (fun m => m.propAttr == some "og:description") with
  | some el =>
    match el.content with
    | some c => if c.isEmpty then none else some c
    | none => none
  | none => none

/-- The heuristic abstract block of `extract_article_fields` (source lines
335-344): when the current abstract is falsy, fill it from the heuristic
container's text, else from `og:description`. -/
def abstract_fill (soup : Soup) (base : Item) : Item :=
  if truthyS (dget base "abstract") then base
  else
    match heuristic_abstract_el soup with
    | some el => setItem base "abstract" (clean_text (some el.textContent))
    | none =>
      match og_description soup with
      | some c => setItem base "abstract" (clean_text (some c))
      | none => base

/-- `extract_article_fields` (source lines 322-347): structured-data fields,
`setdefault` fills from citation meta tags, the heuristic abstract block,
and the `article_url`.  (`setdefault` fills only keys that are absent, and
`extract_from_jsonld` always emits every key.) -/
def extract_article_fields (soup : Soup) (url : String) : Item :=
  let obj := pick_article_obj (parse_jsonld soup)
  let base : Item := match obj with
    | some o => extract_from_jsonld o
    | none => []
  let base := setdefault base "journal" (select_meta soup "citation_journal_title")
  let base := setdefault base "title" (select_meta soup "citation_title")
  let base := setdefault base "doi" (select_meta soup "citation_doi")
  let base := setdefault base "date_published" (select_meta soup "citation_publication_date")
  let base := setdefault base "type" (select_meta soup "citation_article_type")
  let base := setdefault base "abstract"
    (pyOrS (select_meta soup "dc.description") (select_meta soup "description"))
  let base := abstract_fill soup base
  setItem base "article_url" (some url)

/-! ## Persistent store model

The SQLite tables are modelled as row lists in insertion order.  Each
state-changing operation commits immediately in the source, so a table value
here is the table's durable content after the corresponding commit. -/

/-- A row of the `seen` table (uid is the primary key). -/
structure SeenRecord : Type where
  uid : String
  feed_url : String
  article_url : String
  doi : Option String
  pub_date : Option String
  first_seen_at : String
deriving DecidableEq

/-- `SELECT 1 FROM seen WHERE uid=?` as a membership test. -/
def seenHas (store : List SeenRecord) (uid : String) : Bool :=
  store.any (fun r => r.uid == uid)

/-- `mark_seen` (source lines 430-436): `INSERT OR IGNORE` of a seen row;
a conflicting uid leaves the table unchanged. -/
def mark_seen (store : List SeenRecord) (uid feed_url article_url : String)
    (doi pub_date : Option String) (now : String) : List SeenRecord :=
  if seenHas store uid then store
  else store ++ [⟨uid, feed_url, article_url, doi, pub_date, now⟩]

/-- `compute_uid` (source lines 408-417): strict priority doi > id_like >
link hash > whole-item hash, with Python truthiness deciding each guard. -/
def compute_uid (item : Item) : String :=
  if truthyS (dget item "doi") then
    "doi:" ++ pyLower ((dget item "doi").getD "")
  else if truthyS (dget item "id_like") then
    "id:" ++ ((dget item "id_like").getD "")
  else if truthyS (dget item "link") then
    "linkhash:" ++ pyTake 16 (sha256hex ((dget item "link").getD ""))
  else
    "hash:" ++ pyTake 16 (sha256hex (jsonDumps item))

/-- `check_new_items` (source lines 419-428): keep the items whose uid has no
seen row, tagging each with its uid under the key `_uid`.  The seen table is
not consulted again between items (no row is inserted inside the loop), so
the filter is against the single `store` argument throughout. -/
def check_new_items (store : List SeenRecord) : List Item → List Item
  | [] => []
  | it :: rest =>
    let uid := compute_uid it
    if seenHas store uid then check_new_items store rest
    else setItem it "_uid" (some uid) :: check_new_items store rest

/-- A row of the `articles` table (uid is the primary key). -/
structure ArticleRecord : Type where
  uid : String
  feed_url : String
  journal : Option String
  title_en : Option String
  title_cn : Option String
  type : Option String
  pub_date : Option String
  doi : Option String
  article_url : Option String
  abstract_en : Option String
  abstract_cn : Option String
  raw_jsonld : Option String
  fetched_at : String
  last_updated_at : String

/-- `SELECT ... FROM articles WHERE uid=?`. -/
def lookupArticle (articles : List ArticleRecord) (uid : String) : Option ArticleRecord :=
  articles.find? (fun r => r.uid == uid)

/-- `json.dumps(raw_jsonld, ensure_ascii=False) if raw_jsonld else None`
(source line 468): serialization of the raw structured-data object.  Python
`json.dumps` renders dictionaries in insertion order with default
separators; `ensure_ascii=False` keeps non-ASCII characters literal. -/
def jvalDumps : JVal → String
  | .jstr s => "\"" ++ jsonEscStr false s ++ "\""
  | .jnum n => toString n
  | .jbool true => "true"
  | .jbool false => "false"
  | .jnull => "null"
  | .jarr l => "[" ++ joinSep ", " (l.attach.map (fun x => jvalDumps x.1)) ++ "]"
  | .jobj l => "\x7b" ++
      joinSep ", " (l.attach.map (fun x =>
        "\"" ++ jsonEscStr false x.1.1 ++ "\": " ++ jvalDumps x.1.2)) ++ "\x7d"
decreasing_by
  · rcases x with ⟨v, hx⟩
    have h1 := List.sizeOf_lt_of_mem hx
    simp only [JVal.jarr.sizeOf_spec] at *
    omega
  · rcases x with ⟨⟨k, v⟩, hx⟩
    have h1 := List.sizeOf_lt_of_mem hx
    simp only [JVal.jobj.sizeOf_spec, Prod.mk.sizeOf_spec] at *
    omega

/-- The `raw_jsonld` column value: `None` when the object is absent or falsy
(an empty dictionary), else its serialization. -/
def serialize_raw : Option JVal → Option String
  | some j => if jvTruthy j then some (jvalDumps j) else none
  | none => none

/-- `upsert_article` (source lines 438-473): insert a full row, or on a uid
conflict overwrite every extracted column and `last_updated_at`, leaving
`uid`, `feed_url` and `fetched_at` as they were.  The source computes
`now_ts()` separately for `fetched_at` and `last_updated_at`; both calls fall
in the same run instant and are modelled by the single `now` argument. -/
def upsert_article (articles : List ArticleRecord) (uid feed_url : String)
    (fields : Item) (raw : Option JVal) (now : String) : List ArticleRecord :=
  if articles.any (fun r => r.uid == uid) then
    articles.map (fun r =>
      if r.uid == uid then
        { r with
          journal := dget fields "journal"
          title_en := dget fields "title_en"
          title_cn := dget fields "title_cn"
          type := dget fields "type"
          pub_date := dget fields "pub_date"
          doi := dget fields "doi"
          article_url := dget fields "article_url"
          abstract_en := dget fields "abstract_en"
          abstract_cn := dget fields "abstract_cn"
          raw_jsonld := serialize_raw raw
          last_updated_at := now }
      else r)
  else
    articles ++ [⟨uid, feed_url, dget fields "journal", dget fields "title_en",
      dget fields "title_cn", dget fields "type", dget fields "pub_date",
      dget fields "doi", dget fields "article_url", dget fields "abstract_en",
      dget fields "abstract_cn", serialize_raw raw, now, now⟩]

/-- A row of the `feeds` cache table (feed_url is the primary key). -/
structure FeedRow : Type where
  feed_url : String
  etag : Option String
  last_modified : Option String
  last_checked_at : Option String
deriving DecidableEq

/-- `SELECT ... FROM feeds WHERE feed_url=?`. -/
def lookupFeed (table : List FeedRow) (url : String) : Option FeedRow :=
  table.find? (fun r => r.feed_url == url)

/-- `INSERT OR REPLACE INTO feeds`: drop any row with the same key, insert
the new row. -/
def insertOrReplaceFeed (table : List FeedRow) (row : FeedRow) : List FeedRow :=
  table.filter (fun r => r.feed_url ≠ row.feed_url) ++ [row]

/-- The outcome of one `fetch_feed` call, as `run_pipeline` observes it:
a 2xx response with its validator headers and parsed body, a 304, or a
raised exception (transport error or `raise_for_status`). -/
inductive FeedFetchResult : Type where
  | ok : Option String → Option String → XmlNode → FeedFetchResult
  | notModified : FeedFetchResult
  | failed : FeedFetchResult

/-- The per-feed fetch-and-cache phase of `run_pipeline` (source lines
514-536): read the cached validators, then — on failure, warn and `continue`
(the feeds table is untouched and the feed yields no item batch); on 304,
re-store the old validators with a fresh `last_checked_at` and parse nothing;
on success, store the response validators with a fresh `last_checked_at` and
parse the body. -/
def feed_fetch_phase (table : List FeedRow) (url : String) (res : FeedFetchResult)
    (now : String) : List FeedRow × Option (List Item) :=
  let etag := (lookupFeed table url).bind (fun r => r.etag)
  let last_mod := (lookupFeed table url).bind (fun r => r.last_modified)
  match res with
  | .failed => (table, none)
  | .notModified => (insertOrReplaceFeed table ⟨url, etag, last_mod, some now⟩, some [])
  | .ok e lm root => (insertOrReplaceFeed table ⟨url, e, lm, some now⟩, some (parse_feed root))

/-! ## The per-item processing loop of `run_pipeline` -/

/-- The mutable store state threaded through a run. -/
structure PipelineState : Type where
  seen : List SeenRecord
  articles : List ArticleRecord

/-- The outcome of the article-page fetch for one item: the parsed page on
success, or a raised exception. -/
inductive FetchOutcome : Type where
  | success : Soup → FetchOutcome
  | failure : FetchOutcome

/-- Processing of one new item (source lines 541-603), for the
`translator = "none"` configuration (the OpenAI branch is an external
service; with `"none"`, `title_cn`/`abstract_cn` are `title_en`/
`abstract_en`).  On article-fetch failure the item is marked seen and
nothing else changes; on success the merged record is upserted and the item
marked seen. -/
def process_item (feed_url : String) (it : Item) (outcome : FetchOutcome)
    (now : String) (st : PipelineState) : PipelineState :=
  let uid := (dget it "_uid").getD ""
  let link := dget it "link"
  let doi := dget it "doi"
  let pub_date := dget it "pub_date"
  match outcome with
  | .failure =>
    { st with seen := mark_seen st.seen uid feed_url (link.getD "") doi pub_date now }
  | .success soup =>
    let jsonld_obj := pick_article_obj (parse_jsonld soup)
    let fields_from_jsonld : Item := match jsonld_obj with
      | some o => extract_from_jsonld o
      | none => []
    let fallback_fields := extract_article_fields soup (link.getD "")
    let merged := (fields_from_jsonld.filter (fun kv => truthyS kv.2)).foldl
      (fun d kv => setItem d kv.1 kv.2) fallback_fields
    let journal := dget merged "journal"
    let title_en := pyOrS (dget merged "title") (dget it "title")
    let atype := dget merged "type"
    let date_published := pyOrS (dget merged "date_published") (dget it "pub_date")
    let doi_final := pyOrS (dget merged "doi") doi
    let article_url := (pyOrS (pyOrS (dget merged "article_url") link) (some "")).getD ""
    let abstract_en := dget merged "abstract"
    let record : Item :=
      [("journal", journal), ("title_en", title_en), ("title_cn", title_en),
       ("type", atype), ("pub_date", date_published), ("doi", doi_final),
       ("article_url", some article_url), ("abstract_en", abstract_en),
       ("abstract_cn", abstract_en)]
    { seen := mark_seen st.seen uid feed_url article_url doi_final date_published now,
      articles := upsert_article st.articles uid feed_url record jsonld_obj now }

/-- The `for it in new_items` loop of `run_pipeline` (source lines 541-603):
process each new item in order with its article-fetch outcome, returning the
final store state and the list of uids for which the article fetch /
extraction step was entered (every item of the loop reaches the
`requests.get` on its link, source line 549). -/
def process_new_items (feed_url now : String) :
    List (Item × FetchOutcome) → PipelineState → PipelineState × List String
  | [], st => (st, [])
  | (it, oc) :: rest, st =>
    let st1 := process_item feed_url it oc now st
    let out := process_new_items feed_url now rest st1
    (out.1, ((dget it "_uid").getD "") :: out.2)

/-! ## Helper lemmas -/

theorem dget_setItem_self (d : Item) (k : String) (v : Option String) :
    dget (setItem d k v) k = v := by
  induction d with
  | nil => simp [setItem, dget]
  | cons kv rest ih =>
    obtain ⟨k', v'⟩ := kv
    by_cases h : k' = k
    · simp [setItem, dget, h]
    · simp [setItem, dget, h, ih]

theorem dget_setItem_ne (d : Item) (k k' : String) (v : Option String) (h : k' ≠ k) :
    dget (setItem d k v) k' = dget d k' := by
  induction d with
  | nil => simp [setItem, dget, Ne.symm h]
  | cons kv rest ih =>
    obtain ⟨k0, v0⟩ := kv
    by_cases h0 : k0 = k
    · subst h0
      simp [setItem, dget, Ne.symm h]
    · simp only [setItem, if_neg h0, dget]
      by_cases h1 : k0 = k'
      · simp [h1]
      · simp [h1, ih]

theorem truthyS_true_iff (o : Option String) :
    truthyS o = true ↔ ∃ s, o = some s ∧ s ≠ "" := by
  cases o with
  | none => simp [truthyS]
  | some s =>
    simp only [truthyS, Bool.not_eq_true', Option.some.injEq]
    constructor
    · intro h
      refine ⟨s, rfl, fun hs => ?_⟩
      subst hs
      exact absurd h (by decide)
    · rintro ⟨t, rfl, ht⟩
      cases hE : String.isEmpty s
      · rfl
      · exact absurd ((String.isEmpty_iff s).mp hE) ht

theorem pyOrS_truthy_right (a b : Option String) (h : truthyS b = true) :
    truthyS (pyOrS a b) = true := by
  unfold pyOrS
  by_cases ha : truthyS a = true <;> simp [ha, h]

theorem seenHas_mark_seen (store : List SeenRecord) (uid f a : String)
    (d p : Option String) (n : String) :
    seenHas (mark_seen store uid f a d p n) uid = true := by
  by_cases h : seenHas store uid = true
  · unfold mark_seen
    rw [if_pos h]
    exact h
  · unfold mark_seen
    rw [if_neg h]
    simp [seenHas, List.any_append]

/-- `add_item` stores `title` cleaned. -/
theorem add_item_title (d : Item) :
    dget (add_item d) "title" = clean_text (dget d "title") := by
  unfold add_item
  rw [dget_setItem_ne _ _ _ _ (by decide), dget_setItem_ne _ _ _ _ (by decide),
      dget_setItem_ne _ _ _ _ (by decide), dget_setItem_ne _ _ _ _ (by decide),
      dget_setItem_ne _ _ _ _ (by decide), dget_setItem_self]

/-- `add_item` stores `link` as extracted (no `clean_text`). -/
theorem add_item_link (d : Item) :
    dget (add_item d) "link" = dget d "link" := by
  unfold add_item
  rw [dget_setItem_ne _ _ _ _ (by decide), dget_setItem_ne _ _ _ _ (by decide),
      dget_setItem_ne _ _ _ _ (by decide), dget_setItem_ne _ _ _ _ (by decide),
      dget_setItem_self, dget_setItem_ne _ _ _ _ (by decide)]

/-- `add_item` stores `id_like` as extracted (no `clean_text`). -/
theorem add_item_id_like (d : Item) :
    dget (add_item d) "id_like" = dget d "id_like" := by
  unfold add_item
  rw [dget_setItem_ne _ _ _ _ (by decide), dget_setItem_ne _ _ _ _ (by decide),
      dget_setItem_ne _ _ _ _ (by decide), dget_setItem_self,
      dget_setItem_ne _ _ _ _ (by decide), dget_setItem_ne _ _ _ _ (by decide)]

/-- `add_item` stores `pub_date` cleaned. -/
theorem add_item_pub_date (d : Item) :
    dget (add_item d) "pub_date" = clean_text (dget d "pub_date") := by
  unfold add_item
  rw [dget_setItem_ne _ _ _ _ (by decide), dget_setItem_ne _ _ _ _ (by decide),
      dget_setItem_self]
  rw [dget_setItem_ne _ _ _ _ (by decide), dget_setItem_ne _ _ _ _ (by decide),
      dget_setItem_ne _ _ _ _ (by decide)]

/-- `add_item` stores `doi` cleaned. -/
theorem add_item_doi (d : Item) :
    dget (add_item d) "doi" = clean_text (dget d "doi") := by
  unfold add_item
  rw [dget_setItem_ne _ _ _ _ (by decide), dget_setItem_self]
  rw [dget_setItem_ne _ _ _ _ (by decide), dget_setItem_ne _ _ _ _ (by decide),
      dget_setItem_ne _ _ _ _ (by decide), dget_setItem_ne _ _ _ _ (by decide)]

/-- `add_item` stores `journal` cleaned. -/
theorem add_item_journal (d : Item) :
    dget (add_item d) "journal" = clean_text (dget d "journal") := by
  unfold add_item
  rw [dget_setItem_self]
  rw [dget_setItem_ne _ _ _ _ (by decide), dget_setItem_ne _ _ _ _ (by decide),
      dget_setItem_ne _ _ _ _ (by decide), dget_setItem_ne _ _ _ _ (by decide),
      dget_setItem_ne _ _ _ _ (by decide)]

/-- A dictionary has no duplicate keys (always true of a Python dict; an
association list must assume it). -/
def keysNodup (d : Item) : Prop := (d.map Prod.fst).Nodup

instance (d : Item) : Decidable (keysNodup d) := by
  unfold keysNodup
  infer_instance

/-- Lookup is invariant under permutation of a duplicate-free dictionary. -/
theorem dget_perm {l₁ l₂ : Item} (h : l₁.Perm l₂) :
    keysNodup l₁ → ∀ k, dget l₁ k = dget l₂ k := by
  induction h with
  | nil => intro _ k; rfl
  | cons x h ih =>
    intro nd k
    obtain ⟨kx, vx⟩ := x
    simp only [keysNodup, List.map_cons, List.nodup_cons] at nd
    by_cases hk : kx = k
    · simp [dget, hk]
    · simp only [dget, if_neg hk]
      exact ih nd.2 k
  | swap x y l =>
    intro nd k
    obtain ⟨kx, vx⟩ := x
    obtain ⟨ky, vy⟩ := y
    simp only [keysNodup, List.map_cons, List.nodup_cons, List.mem_cons] at nd
    have hxy : ky ≠ kx := fun e => nd.1 (Or.inl e)
    by_cases h1 : ky = k
    · subst h1
      simp [dget, Ne.symm hxy]
    · by_cases h2 : kx = k
      · subst h2
        simp [dget, h1]
      · simp [dget, h1, h2]
  | trans h1 h2 ih1 ih2 =>
    intro nd k
    have nd2 : keysNodup _ := ((h1.map Prod.fst).nodup_iff).mp nd
    exact (ih1 nd k).trans (ih2 nd2 k)

/-- Strict key order for sorted-dictionary uniqueness. -/
def keyLt (a b : String × Option String) : Prop := a.1 < b.1

instance : IsAntisymm (String × Option String) keyLt :=
  ⟨fun _ _ h h' => absurd (lt_trans h h') (lt_irrefl _)⟩

/-- A `keyLe`-sorted dictionary with duplicate-free keys is `keyLt`-sorted. -/
theorem sorted_keyLt_of_sorted_keyLe {l : Item} (hs : List.Sorted keyLe l)
    (nd : keysNodup l) : List.Sorted keyLt l := by
  have hne : List.Pairwise (fun a b : String × Option String => a.1 ≠ b.1) l := by
    simpa [keysNodup, List.Nodup, List.pairwise_map] using nd
  exact (hs.and hne).imp (fun h => lt_of_le_of_ne h.1 h.2)

/-- Sorting a duplicate-free dictionary is invariant under permutation of its
entries. -/
theorem insertionSort_perm_eq {l₁ l₂ : Item} (h : l₁.Perm l₂) (nd : keysNodup l₁) :
    List.insertionSort keyLe l₁ = List.insertionSort keyLe l₂ := by
  have p1 := List.perm_insertionSort keyLe l₁
  have p2 := List.perm_insertionSort keyLe l₂
  have hp : (List.insertionSort keyLe l₁).Perm (List.insertionSort keyLe l₂) :=
    p1.trans (h.trans p2.symm)
  have nd1 : keysNodup (List.insertionSort keyLe l₁) :=
    ((p1.map Prod.fst).nodup_iff).mpr nd
  have nd2 : keysNodup (List.insertionSort keyLe l₂) :=
    ((hp.map Prod.fst).nodup_iff).mp nd1
  exact List.eq_of_perm_of_sorted hp
    (sorted_keyLt_of_sorted_keyLe (List.sorted_insertionSort keyLe l₁) nd1)
    (sorted_keyLt_of_sorted_keyLe (List.sorted_insertionSort keyLe l₂) nd2)

/-- `json.dumps(..., sort_keys=True)` is independent of entry order for
duplicate-free dictionaries. -/
theorem jsonDumps_perm {l₁ l₂ : Item} (h : l₁.Perm l₂) (nd : keysNodup l₁) :
    jsonDumps l₁ = jsonDumps l₂ := by
  unfold jsonDumps
  rw [insertionSort_perm_eq h nd]

/-- `compute_uid` depends only on the dictionary's key-value mapping, not on
entry order. -/
theorem compute_uid_perm {l₁ l₂ : Item} (h : l₁.Perm l₂) (nd : keysNodup l₁) :
    compute_uid l₁ = compute_uid l₂ := by
  unfold compute_uid
  rw [dget_perm h nd "doi", dget_perm h nd "id_like", dget_perm h nd "link",
      jsonDumps_perm h nd]

/-- Each hex-rendered word has eight characters. -/
theorem toHex8_length (w : Nat) : (toHex8 w).length = 8 := rfl

/-- A SHA-256 hex digest has 64 characters. -/
theorem sha256hex_length (s : String) : (sha256hex s).length = 64 := by
  unfold sha256hex
  simp [String.length_append, toHex8_length]

/-- The 16-character truncation of a digest is nonempty. -/
theorem pyTake_sha_ne_empty (s : String) : pyTake 16 (sha256hex s) ≠ "" := by
  have hlen : (pyTake 16 (sha256hex s)).length = 16 := by
    show ((sha256hex s).data.take 16).length = 16
    rw [List.length_take]
    have h64 : (sha256hex s).data.length = 64 := sha256hex_length s
    rw [h64]
    decide
  intro h
  rw [h] at hlen
  exact absurd hlen (by decide)

/-- Lowercasing preserves nonemptiness. -/
theorem pyLower_ne_empty (s : String) (h : s ≠ "") : pyLower s ≠ "" := by
  intro he
  apply h
  have hd : s.data.map Char.toLower = [] := congrArg String.data he
  have hsd : s.data = [] := by
    cases hs : s.data with
    | nil => rfl
    | cons a l => rw [hs] at hd; simp at hd
  cases s with
  | mk data => exact congrArg String.mk hsd

/-- Every element of `check_new_items store items` is an input item with an
unseen uid, tagged with that uid under `_uid`. -/
theorem mem_check_new_items {store : List SeenRecord} {items : List Item} {x : Item} :
    x ∈ check_new_items store items →
    ∃ it ∈ items, seenHas store (compute_uid it) = false ∧
      x = setItem it "_uid" (some (compute_uid it)) := by
  induction items with
  | nil => intro hx; simp [check_new_items] at hx
  | cons it rest ih =>
    intro hx
    by_cases h : seenHas store (compute_uid it) = true
    · rw [check_new_items, if_pos h] at hx
      obtain ⟨it', hm, hs, he⟩ := ih hx
      exact ⟨it', List.mem_cons_of_mem _ hm, hs, he⟩
    · rw [check_new_items, if_neg h] at hx
      rcases List.mem_cons.mp hx with hx | hx
      · exact ⟨it, List.mem_cons_self _ _, by simpa using h, hx⟩
      · obtain ⟨it', hm, hs, he⟩ := ih hx
        exact ⟨it', List.mem_cons_of_mem _ hm, hs, he⟩

/-- The extraction-attempt log is the `_uid` of each processed item, in
order, independent of the store state. -/
theorem process_new_items_log (fu now : String) (l : List (Item × FetchOutcome)) :
    ∀ st, (process_new_items fu now l st).2 =
      l.map (fun p => (dget p.1 "_uid").getD "") := by
  induction l with
  | nil => intro st; rfl
  | cons p rest ih =>
    intro st
    obtain ⟨it, oc⟩ := p
    simp only [process_new_items, List.map_cons]
    rw [ih]

/-- `INSERT OR REPLACE` followed by a key lookup returns the new row. -/
theorem lookupFeed_insertOrReplaceFeed (t : List FeedRow) (row : FeedRow) :
    lookupFeed (insertOrReplaceFeed t row) row.feed_url = some row := by
  unfold lookupFeed insertOrReplaceFeed
  rw [List.find?_append]
  have hnone : List.find? (fun r => r.feed_url == row.feed_url)
      (t.filter (fun r => r.feed_url ≠ row.feed_url)) = none := by
    rw [List.find?_eq_none]
    intro x hx
    have hmem := List.of_mem_filter hx
    simpa using hmem
  rw [hnone]
  simp

/-- When no row has the uid, `upsert_article` appends a fresh full row. -/
theorem upsert_article_absent (arts : List ArticleRecord) (uid feed_url : String)
    (fields : Item) (raw : Option JVal) (now : String)
    (h : ∀ r ∈ arts, r.uid ≠ uid) :
    upsert_article arts uid feed_url fields raw now =
      arts ++ [⟨uid, feed_url, dget fields "journal", dget fields "title_en",
        dget fields "title_cn", dget fields "type", dget fields "pub_date",
        dget fields "doi", dget fields "article_url", dget fields "abstract_en",
        dget fields "abstract_cn", serialize_raw raw, now, now⟩] := by
  unfold upsert_article
  have hany : arts.any (fun r => r.uid == uid) = false := by
    rw [List.any_eq_false]
    intro r hr
    simpa using h r hr
  rw [hany]
  simp

/-- `abstract_fill` changes at most the `abstract` key. -/
theorem dget_abstract_fill_ne (soup : Soup) (base : Item) (k : String)
    (h : k ≠ "abstract") : dget (abstract_fill soup base) k = dget base k := by
  unfold abstract_fill
  split
  · rfl
  · split
    · exact dget_setItem_ne _ _ _ _ h
    · split
      · exact dget_setItem_ne _ _ _ _ h
      · rfl

/-- With a structured-data object present, the `setdefault` chain of
`extract_article_fields` is the identity (every key is already present), so
the result is the structured-data fields with only the abstract heuristic
and the `article_url` applied. -/
theorem extract_article_fields_obj (soup : Soup) (url : String) (o : JVal)
    (h : pick_article_obj (parse_jsonld soup) = some o) :
    extract_article_fields soup url =
      setItem (abstract_fill soup (extract_from_jsonld o)) "article_url" (some url) := by
  unfold extract_article_fields
  rw [h]
  rfl

/-- Without a structured-data object, the `setdefault` chain builds the
record from the citation meta tags. -/
theorem extract_article_fields_no_obj (soup : Soup) (url : String)
    (h : pick_article_obj (parse_jsonld soup) = none) :
    extract_article_fields soup url =
      setItem (abstract_fill soup
        [("journal", select_meta soup "citation_journal_title"),
         ("title", select_meta soup "citation_title"),
         ("doi", select_meta soup "citation_doi"),
         ("date_published", select_meta soup "citation_publication_date"),
         ("type", select_meta soup "citation_article_type"),
         ("abstract", pyOrS (select_meta soup "dc.description") (select_meta soup "description"))])
        "article_url" (some url) := by
  unfold extract_article_fields
  rw [h]
  rfl

/-! ## Claim theorems -/

/-- A feed entry whose only content is a guid-like id, used in concrete
checks. -/
def itemC1 : Item :=
  [("title", none), ("link", none), ("id_like", some "A"),
   ("pub_date", none), ("doi", none), ("journal", none)]

/-- An article page with no structured data, no meta tags and no elements. -/
def emptySoup : Soup := ⟨[], [], []⟩

/-- C1 (counterexample): the claim's conclusion "extraction happens at most
once per uid across all runs" fails when one feed batch repeats an entry:
with an empty seen store, both copies pass `check_new_items` (the seen check
precedes any `mark_seen`), and the single run enters the article-extraction
step twice for the same uid `id:A`. -/
theorem c1_counterexample :
    (process_new_items "feed" "t0"
      ((check_new_items [] [itemC1, itemC1]).map (fun x => (x, FetchOutcome.success emptySoup)))
      ⟨[], []⟩).2 = ["id:A", "id:A"] ∧
    List.count "id:A" ((process_new_items "feed" "t0"
      ((check_new_items [] [itemC1, itemC1]).map (fun x => (x, FetchOutcome.success emptySoup)))
      ⟨[], []⟩).2) = 2 := by
  decide

/-- C1 (amended): for every uid that already has a SeenRecord in the seen
store, an item producing that same uid in a later run is excluded from the
list returned by `check_new_items`, and the article-extraction step of that
run is never entered for that uid.  (Within a single run, a batch repeating
an unseen entry can still extract the same uid more than once, since the
seen check runs before any marking.) -/
theorem c1_seen_uid_not_extracted :
    (∀ (store : List SeenRecord) (items : List Item) (u : String),
      seenHas store u = true →
      ∀ x ∈ check_new_items store items, ¬ dget x "_uid" = some u) ∧
    (∀ (store : List SeenRecord) (st : PipelineState) (items : List Item)
       (l : List (Item × FetchOutcome)) (fu now u : String),
      seenHas store u = true →
      l.map Prod.fst = check_new_items store items →
      u ∉ (process_new_items fu now l st).2) := by
  constructor
  · intro store items u hseen x hx he
    obtain ⟨it0, _, hunseen, rfl⟩ := mem_check_new_items hx
    rw [dget_setItem_self] at he
    obtain rfl := Option.some.inj he
    rw [hunseen] at hseen
    exact Bool.false_ne_true hseen
  · intro store st items l fu now u hseen hmap hmem
    rw [process_new_items_log] at hmem
    simp only [List.mem_map] at hmem
    obtain ⟨p, hp, hup⟩ := hmem
    have hp1 : p.1 ∈ check_new_items store items := by
      rw [← hmap]
      exact List.mem_map_of_mem Prod.fst hp
    obtain ⟨it0, _, hunseen, heq⟩ := mem_check_new_items hp1
    rw [heq, dget_setItem_self] at hup
    simp only [Option.getD_some] at hup
    rw [hup] at hunseen
    rw [hunseen] at hseen
    exact Bool.false_ne_true hseen

/-- C1 (witness): a concrete store already containing uid `doi:10.1/x`
excludes a re-occurring item from `check_new_items` and from a run's
extraction log. -/
theorem c1_witness :
    seenHas [⟨"doi:10.1/x", "f", "", none, none, "t"⟩] "doi:10.1/x" = true ∧
    (([] : List (Item × FetchOutcome)).map Prod.fst =
      check_new_items [⟨"doi:10.1/x", "f", "", none, none, "t"⟩]
        [[("title", none), ("link", none), ("id_like", none), ("pub_date", none),
          ("doi", some "10.1/X"), ("journal", none)]]) ∧
    (∀ x ∈ check_new_items [⟨"doi:10.1/x", "f", "", none, none, "t"⟩]
        [[("title", none), ("link", none), ("id_like", none), ("pub_date", none),
          ("doi", some "10.1/X"), ("journal", none)]],
      ¬ dget x "_uid" = some "doi:10.1/x") ∧
    "doi:10.1/x" ∉ (process_new_items "f" "t1" ([] : List (Item × FetchOutcome)) ⟨[], []⟩).2 :=
  ⟨by decide, by decide,
   c1_seen_uid_not_extracted.1 [⟨"doi:10.1/x", "f", "", none, none, "t"⟩] _ _ (by decide),
   c1_seen_uid_not_extracted.2 [⟨"doi:10.1/x", "f", "", none, none, "t"⟩] ⟨[], []⟩
     [[("title", none), ("link", none), ("id_like", none), ("pub_date", none),
       ("doi", some "10.1/X"), ("journal", none)]] [] "f" "t1" "doi:10.1/x"
     (by decide) (by decide)⟩

/-- C2: `compute_uid` follows the strict priority (1) truthy doi gives
`doi:` plus the lowercased doi, (2) else truthy id_like gives `id:` plus
id_like, (3) else truthy link gives `linkhash:` plus the 16-character
truncated SHA-256 of the link, (4) else `hash:` plus the truncated SHA-256
of the sorted-key serialization of the whole item; and two items with the
same key-value content (in any entry order, keys duplicate-free) always
yield the identical uid. -/
theorem c2_uid_priority_and_determinism :
    (∀ item : Item,
      (truthyS (dget item "doi") = true →
        compute_uid item = "doi:" ++ pyLower ((dget item "doi").getD "")) ∧
      (truthyS (dget item "doi") = false → truthyS (dget item "id_like") = true →
        compute_uid item = "id:" ++ ((dget item "id_like").getD "")) ∧
      (truthyS (dget item "doi") = false → truthyS (dget item "id_like") = false →
        truthyS (dget item "link") = true →
        compute_uid item = "linkhash:" ++ pyTake 16 (sha256hex ((dget item "link").getD ""))) ∧
      (truthyS (dget item "doi") = false → truthyS (dget item "id_like") = false →
        truthyS (dget item "link") = false →
        compute_uid item = "hash:" ++ pyTake 16 (sha256hex (jsonDumps item)))) ∧
    (∀ d1 d2 : Item, d1.Perm d2 → keysNodup d1 → compute_uid d1 = compute_uid d2) := by
  constructor
  · intro item
    refine ⟨fun h1 => ?_, fun h1 h2 => ?_, fun h1 h2 h3 => ?_, fun h1 h2 h3 => ?_⟩ <;>
      simp [compute_uid, h1, *]
  · intro d1 d2 h nd
    exact compute_uid_perm h nd

/-- An item carrying a doi, and the same item with its entries permuted. -/
def itemC2a : Item := [("doi", some "10.1/X"), ("title", some "T")]

/-- Entry-order permutation of `itemC2a`. -/
def itemC2b : Item := [("title", some "T"), ("doi", some "10.1/X")]

/-- C2 (witness): concrete instantiation of the doi branch and of
order-independence. -/
theorem c2_witness :
    truthyS (dget itemC2a "doi") = true ∧
    compute_uid itemC2a = "doi:" ++ pyLower ((dget itemC2a "doi").getD "") ∧
    itemC2a.Perm itemC2b ∧ keysNodup itemC2a ∧
    compute_uid itemC2a = compute_uid itemC2b :=
  ⟨by decide, (c2_uid_priority_and_determinism.1 itemC2a).1 (by decide),
   by decide, by decide,
   c2_uid_priority_and_determinism.2 itemC2a itemC2b (by decide) (by decide)⟩

/-- A structured-data Article object with a headline and no doi. -/
def objC3 : JVal := .jobj [("@type", .jstr "Article"), ("headline", .jstr "SD Title")]

/-- A page carrying `objC3` plus `citation_doi` and `citation_title` meta
tags. -/
def soupC3 : Soup :=
  ⟨[some objC3],
   [⟨some "citation_doi", none, some "10.1234/abcd"⟩,
    ⟨some "citation_title", none, some "Meta Title"⟩], []⟩

/-- C3 (counterexample): on a page whose structured-data layer leaves `doi`
empty (`None`) while a `citation_doi` meta tag is present, the meta value
does **not** fill the field: `extract_from_jsonld` always emits every key,
and `base.setdefault` only fills keys that are absent, so the merged record's
doi stays empty instead of `10.1234/abcd` as the claim requires. -/
theorem c3_counterexample :
    (pick_article_obj (parse_jsonld soupC3)).map
      (fun o => dget (extract_from_jsonld o) "doi") = some none ∧
    select_meta soupC3 "citation_doi" = some "10.1234/abcd" ∧
    dget (extract_article_fields soupC3 "http://u") "doi" = none ∧
    dget (extract_article_fields soupC3 "http://u") "doi" ≠
      select_meta soupC3 "citation_doi" := by
  decide

/-- C3 (amended): the layers are evaluated in the fixed order structured
data, then meta tags, then heuristic abstract search, but the meta-tag layer
fills only keys *absent* from the higher layer's record.  Since the
structured-data extractor emits every key whenever an Article object is
found, each non-abstract field of the merged record then equals the
structured-data value (in particular the structured-data title wins over a
`citation_title` meta tag, even when the structured-data value is empty and
the meta tag present); the citation meta tags populate those fields only
when no structured-data Article object exists. -/
theorem c3_layered_extraction :
    (∀ (soup : Soup) (url : String) (o : JVal),
      pick_article_obj (parse_jsonld soup) = some o →
      dget (extract_article_fields soup url) "title" = dget (extract_from_jsonld o) "title" ∧
      dget (extract_article_fields soup url) "journal" = dget (extract_from_jsonld o) "journal" ∧
      dget (extract_article_fields soup url) "doi" = dget (extract_from_jsonld o) "doi" ∧
      dget (extract_article_fields soup url) "date_published" =
        dget (extract_from_jsonld o) "date_published" ∧
      dget (extract_article_fields soup url) "type" = dget (extract_from_jsonld o) "type") ∧
    (∀ (soup : Soup) (url : String),
      pick_article_obj (parse_jsonld soup) = none →
      dget (extract_article_fields soup url) "title" = select_meta soup "citation_title" ∧
      dget (extract_article_fields soup url) "journal" =
        select_meta soup "citation_journal_title" ∧
      dget (extract_article_fields soup url) "doi" = select_meta soup "citation_doi" ∧
      dget (extract_article_fields soup url) "date_published" =
        select_meta soup "citation_publication_date" ∧
      dget (extract_article_fields soup url) "type" =
        select_meta soup "citation_article_type") := by
  constructor
  · intro soup url o h
    rw [extract_article_fields_obj soup url o h]
    refine ⟨?_, ?_, ?_, ?_, ?_⟩ <;>
      rw [dget_setItem_ne _ _ _ _ (by decide), dget_abstract_fill_ne _ _ _ (by decide)]
  · intro soup url h
    rw [extract_article_fields_no_obj soup url h]
    refine ⟨?_, ?_, ?_, ?_, ?_⟩ <;>
      · rw [dget_setItem_ne _ _ _ _ (by decide), dget_abstract_fill_ne _ _ _ (by decide)]
        rfl

/-- A page with a `citation_title` meta tag and no structured data. -/
def soupMeta : Soup := ⟨[], [⟨some "citation_title", none, some "Meta Title"⟩], []⟩

/-- C3 (witness): `c3_layered_extraction` instantiated at `soupC3` (object
present) and `soupMeta` (no object). -/
theorem c3_witness :
    (pick_article_obj (parse_jsonld soupC3) = some objC3 ∧
      dget (extract_article_fields soupC3 "u") "title" =
        dget (extract_from_jsonld objC3) "title") ∧
    (pick_article_obj (parse_jsonld soupMeta) = none ∧
      dget (extract_article_fields soupMeta "u") "title" =
        select_meta soupMeta "citation_title") :=
  ⟨⟨rfl, (c3_layered_extraction.1 soupC3 "u" objC3 rfl).1⟩,
   ⟨rfl, (c3_layered_extraction.2 soupMeta "u" rfl).1⟩⟩

/-- A feeds-table row with cached validators and a last-checked stamp. -/
def tblC4 : List FeedRow := [⟨"http://f", some "E1", some "L1", some "T0"⟩]

/-- C4 (counterexample): on a fetch failure `run_pipeline` logs and
`continue`s without touching the feeds table, so the persisted row —
including `last_checked_at` — is *not* updated, contradicting "updated on
every fetch attempt regardless of the fetch outcome". -/
theorem c4_counterexample :
    (feed_fetch_phase tblC4 "http://f" .failed "T1").1 = tblC4 ∧
    (lookupFeed (feed_fetch_phase tblC4 "http://f" .failed "T1").1 "http://f").map
      FeedRow.last_checked_at = some (some "T0") ∧
    (lookupFeed (feed_fetch_phase tblC4 "http://f" .failed "T1").1 "http://f").map
      FeedRow.last_checked_at ≠ some (some "T1") := by
  decide

/-- C4 (amended): the persisted feeds row is rewritten with a fresh
`last_checked_at` on every fetch attempt that yields a response — on success
(storing the response validators) and on a not-modified response (re-storing
the cached validators) — but on a fetch failure the table is left unchanged
and the feed is skipped for the run. -/
theorem c4_cache_update :
    (∀ (table : List FeedRow) (url now : String) (e lm : Option String) (root : XmlNode),
      lookupFeed (feed_fetch_phase table url (.ok e lm root) now).1 url =
        some ⟨url, e, lm, some now⟩) ∧
    (∀ (table : List FeedRow) (url now : String),
      lookupFeed (feed_fetch_phase table url .notModified now).1 url =
        some ⟨url, (lookupFeed table url).bind FeedRow.etag,
          (lookupFeed table url).bind FeedRow.last_modified, some now⟩) ∧
    (∀ (table : List FeedRow) (url now : String),
      (feed_fetch_phase table url .failed now).1 = table) := by
  refine ⟨?_, ?_, ?_⟩
  · intro table url now e lm root
    exact lookupFeed_insertOrReplaceFeed table ⟨url, e, lm, some now⟩
  · intro table url now
    exact lookupFeed_insertOrReplaceFeed table _
  · intro table url now
    rfl

/-- An RSS 2.0 feed whose item's link text contains a double space. -/
def rootC5 : XmlNode :=
  .mk "rss" [] none
    [.mk "channel" [] none
      [.mk "item" [] none [.mk "link" [] (some "http://E/a  b") []]]]

/-- C5 (counterexample): the `link` field is stored as extracted, not passed
through entity-unescaping and whitespace collapsing: a link text with an
inner double space is stored verbatim, while `clean_text` would collapse
it. -/
theorem c5_counterexample :
    (parse_feed rootC5).map (fun it => dget it "link") = [some "http://E/a  b"] ∧
    clean_text (some "http://E/a  b") = some "http://E/a b" ∧
    (parse_feed rootC5).map (fun it => dget it "link") ≠
      (parse_feed rootC5).map (fun it => clean_text (dget it "link")) := by
  decide

/-- C5 (amended): of the canonical item's fields, `title`, `pub_date`, `doi`
and `journal` pass through `clean_text` (entity unescaping, whitespace
collapsing, stripping) before being stored; `link` and `id_like` are stored
as extracted (only end-stripped by `xml_text`).  A string that is empty
after normalization is falsy and hence treated as absent wherever the
pipeline tests it. -/
theorem c5_field_normalization :
    (∀ d : Item,
      dget (add_item d) "title" = clean_text (dget d "title") ∧
      dget (add_item d) "link" = dget d "link" ∧
      dget (add_item d) "id_like" = dget d "id_like" ∧
      dget (add_item d) "pub_date" = clean_text (dget d "pub_date") ∧
      dget (add_item d) "doi" = clean_text (dget d "doi") ∧
      dget (add_item d) "journal" = clean_text (dget d "journal")) ∧
    truthyS (some "") = false :=
  ⟨fun d => ⟨add_item_title d, add_item_link d, add_item_id_like d,
    add_item_pub_date d, add_item_doi d, add_item_journal d⟩, rfl⟩

/-- In an RDF item, `id_like` falls back to the link (`about or
dc_identifier or link`), so a truthy link makes `id_like` truthy. -/
theorem rdf_id_like_truthy (n : XmlNode)
    (h : truthyS (dget (parseRdfItem n) "link") = true) :
    truthyS (dget (parseRdfItem n) "id_like") = true := by
  unfold parseRdfItem at h ⊢
  rw [add_item_link] at h
  rw [add_item_id_like]
  exact pyOrS_truthy_right _ _ (pyOrS_truthy_right _ _ h)

/-- In an RSS 2.0 item, `id_like` falls back to the link (`guid or link`). -/
theorem rss2_id_like_truthy (n : XmlNode)
    (h : truthyS (dget (parseRss2Item n) "link") = true) :
    truthyS (dget (parseRss2Item n) "id_like") = true := by
  unfold parseRss2Item at h ⊢
  rw [add_item_link] at h
  rw [add_item_id_like]
  exact pyOrS_truthy_right _ _ h

/-- In an Atom entry, `id_like` falls back to the link (`entry_id or
link`). -/
theorem atom_id_like_truthy (n : XmlNode)
    (h : truthyS (dget (parseAtomEntry n) "link") = true) :
    truthyS (dget (parseAtomEntry n) "id_like") = true := by
  unfold parseAtomEntry at h ⊢
  rw [add_item_link] at h
  rw [add_item_id_like]
  exact pyOrS_truthy_right _ _ h

/-- An RSS 2.0 feed whose single item carries only a link. -/
def rootC6 : XmlNode :=
  .mk "rss" [] none
    [.mk "channel" [] none
      [.mk "item" [] none [.mk "link" [] (some "http://example.org/a") []]]]

/-- C6 (counterexample): a feed item whose only identifying data is a link
(no doi, no guid) does **not** get a `linkhash:`-prefixed uid: the parser
backfills `id_like` from the link, so `compute_uid` takes the `id:` branch
and returns `id:http://example.org/a`. -/
theorem c6_counterexample :
    (parse_feed rootC6).map (fun it => dget it "doi") = [none] ∧
    (parse_feed rootC6).map (fun it => dget it "id_like") = [some "http://example.org/a"] ∧
    (parse_feed rootC6).map compute_uid = ["id:http://example.org/a"] ∧
    listStartsWithCh "linkhash:".data "id:http://example.org/a".data = false := by
  decide

/-- C6 (amended): every parsed feed item with a truthy link and no truthy
doi has a truthy `id_like` (each dialect backfills it from the link), so its
uid carries the prefix `id:` — `id:` plus the stored `id_like` — rather than
`linkhash:`; the uid is stable across repeated parses because parsing and
uid computation are pure functions of the feed content. -/
theorem c6_link_only_uid :
    ∀ (root : XmlNode), ∀ it ∈ parse_feed root,
      truthyS (dget it "doi") = false →
      truthyS (dget it "link") = true →
      truthyS (dget it "id_like") = true ∧
      compute_uid it = "id:" ++ ((dget it "id_like").getD "") := by
  intro root it hmem hdoi hlink
  have hid : truthyS (dget it "id_like") = true := by
    simp only [parse_feed] at hmem
    repeat' split at hmem
    · simp only [List.mem_map] at hmem
      obtain ⟨n, -, rfl⟩ := hmem
      exact rdf_id_like_truthy n hlink
    · simp only [List.mem_map] at hmem
      obtain ⟨n, -, rfl⟩ := hmem
      exact rss2_id_like_truthy n hlink
    · exact absurd hmem (List.not_mem_nil it)
    · simp only [List.mem_map] at hmem
      obtain ⟨n, -, rfl⟩ := hmem
      exact atom_id_like_truthy n hlink
    · simp only [List.mem_map] at hmem
      obtain ⟨n, -, rfl⟩ := hmem
      exact atom_id_like_truthy n hlink
    · exact absurd hmem (List.not_mem_nil it)
  refine ⟨hid, ?_⟩
  simp [compute_uid, hdoi, hid]

/-- The canonical item `parse_feed` produces from `rootC6`. -/
def itemC6 : Item :=
  [("title", none), ("link", some "http://example.org/a"),
   ("id_like", some "http://example.org/a"), ("pub_date", none),
   ("doi", none), ("journal", none)]

/-- C6 (witness): `c6_link_only_uid` instantiated at the item parsed from
`rootC6`. -/
theorem c6_witness :
    itemC6 ∈ parse_feed rootC6 ∧
    truthyS (dget itemC6 "doi") = false ∧
    truthyS (dget itemC6 "link") = true ∧
    (truthyS (dget itemC6 "id_like") = true ∧
     compute_uid itemC6 = "id:" ++ ((dget itemC6 "id_like").getD "")) :=
  ⟨by decide, by decide, by decide,
   c6_link_only_uid rootC6 itemC6 (by decide) (by decide) (by decide)⟩

/-- C7: `mark_seen` is idempotent: with a SeenRecord already present for the
uid, the call leaves the store unchanged (no error, no duplicate row, no
mutation of the existing record, `first_seen_at` included), and two calls
with the same uid — whatever the second call's other arguments — have the
same effect on the store as the first alone. -/
theorem c7_mark_seen_idempotent :
    (∀ (store : List SeenRecord) (uid f a : String) (d p : Option String) (n : String),
      seenHas store uid = true → mark_seen store uid f a d p n = store) ∧
    (∀ (store : List SeenRecord) (uid f1 a1 : String) (d1 p1 : Option String) (n1 : String)
       (f2 a2 : String) (d2 p2 : Option String) (n2 : String),
      mark_seen (mark_seen store uid f1 a1 d1 p1 n1) uid f2 a2 d2 p2 n2 =
        mark_seen store uid f1 a1 d1 p1 n1) := by
  have key : ∀ (s : List SeenRecord) (uid f a : String) (d p : Option String) (n : String),
      seenHas s uid = true → mark_seen s uid f a d p n = s := by
    intro s uid f a d p n h
    unfold mark_seen
    rw [if_pos h]
  exact ⟨key, fun store uid f1 a1 d1 p1 n1 f2 a2 d2 p2 n2 =>
    key _ uid f2 a2 d2 p2 n2 (seenHas_mark_seen store uid f1 a1 d1 p1 n1)⟩

/-- C7 (witness): a store already holding uid `u1` is unchanged by another
`mark_seen` with different arguments. -/
theorem c7_witness :
    seenHas [⟨"u1", "f", "a", none, none, "t0"⟩] "u1" = true ∧
    mark_seen [⟨"u1", "f", "a", none, none, "t0"⟩] "u1" "f2" "a2" none none "t2" =
      [⟨"u1", "f", "a", none, none, "t0"⟩] :=
  ⟨by decide,
   c7_mark_seen_idempotent.1 [⟨"u1", "f", "a", none, none, "t0"⟩] "u1" "f2" "a2"
     none none "t2" (by decide)⟩

/-- An upsert against a table whose only row with the uid is a known
appended row updates that row in place: every extracted column and
`last_updated_at` take the new call's values, while `uid`, `feed_url` and
`fetched_at` are untouched. -/
theorem lookupArticle_upsert_appended (arts : List ArticleRecord) (row : ArticleRecord)
    (uid f : String) (fields : Item) (raw : Option JVal) (now : String)
    (h : ∀ r ∈ arts, r.uid ≠ uid) (hrow : row.uid = uid) :
    lookupArticle (upsert_article (arts ++ [row]) uid f fields raw now) uid =
      some { row with
        journal := dget fields "journal"
        title_en := dget fields "title_en"
        title_cn := dget fields "title_cn"
        type := dget fields "type"
        pub_date := dget fields "pub_date"
        doi := dget fields "doi"
        article_url := dget fields "article_url"
        abstract_en := dget fields "abstract_en"
        abstract_cn := dget fields "abstract_cn"
        raw_jsonld := serialize_raw raw
        last_updated_at := now } := by
  unfold upsert_article
  have hany : ((arts ++ [row]).any (fun r => r.uid == uid)) = true := by
    rw [List.any_append]
    simp [hrow]
  rw [hany]
  simp only [if_true]
  unfold lookupArticle
  rw [List.map_append, List.find?_append]
  have h1 : List.find? (fun r => r.uid == uid)
      (arts.map (fun r => if r.uid == uid then
        { r with
          journal := dget fields "journal"
          title_en := dget fields "title_en"
          title_cn := dget fields "title_cn"
          type := dget fields "type"
          pub_date := dget fields "pub_date"
          doi := dget fields "doi"
          article_url := dget fields "article_url"
          abstract_en := dget fields "abstract_en"
          abstract_cn := dget fields "abstract_cn"
          raw_jsonld := serialize_raw raw
          last_updated_at := now }
        else r)) = none := by
    rw [List.find?_eq_none]
    intro x hx
    simp only [List.mem_map] at hx
    obtain ⟨r, hr, rfl⟩ := hx
    have hne : (r.uid == uid) = false := by
      simp [h r hr]
    rw [hne]
    simp [h r hr]
  rw [h1]
  simp [hrow]

/-- C8: two consecutive `upsert_article` calls for the same (initially
absent) uid leave the record holding the second call's values for every
extracted column, with `last_updated_at` refreshed by the second call, while
`fetched_at` (and `feed_url`) retain the values set at first insertion. -/
theorem c8_upsert_second_call_wins :
    ∀ (arts : List ArticleRecord) (uid f1 f2 : String) (fields1 fields2 : Item)
      (raw1 raw2 : Option JVal) (n1 n2 : String),
      (∀ r ∈ arts, r.uid ≠ uid) →
      lookupArticle
        (upsert_article (upsert_article arts uid f1 fields1 raw1 n1) uid f2 fields2 raw2 n2)
        uid =
      some ⟨uid, f1, dget fields2 "journal", dget fields2 "title_en", dget fields2 "title_cn",
        dget fields2 "type", dget fields2 "pub_date", dget fields2 "doi",
        dget fields2 "article_url", dget fields2 "abstract_en", dget fields2 "abstract_cn",
        serialize_raw raw2, n1, n2⟩ := by
  intro arts uid f1 f2 fields1 fields2 raw1 raw2 n1 n2 h
  rw [upsert_article_absent arts uid f1 fields1 raw1 n1 h]
  exact lookupArticle_upsert_appended arts _ uid f2 fields2 raw2 n2 h rfl

/-- C8 (witness): two concrete upserts from the empty table. -/
theorem c8_witness :
    (∀ r ∈ ([] : List ArticleRecord), r.uid ≠ "u") ∧
    lookupArticle
      (upsert_article (upsert_article [] "u" "f1" [("journal", some "J1")] none "t1")
        "u" "f2" [("journal", some "J2")] none "t2") "u" =
    some ⟨"u", "f1", dget [("journal", some "J2")] "journal",
      dget [("journal", some "J2")] "title_en", dget [("journal", some "J2")] "title_cn",
      dget [("journal", some "J2")] "type", dget [("journal", some "J2")] "pub_date",
      dget [("journal", some "J2")] "doi", dget [("journal", some "J2")] "article_url",
      dget [("journal", some "J2")] "abstract_en", dget [("journal", some "J2")] "abstract_cn",
      serialize_raw none, "t1", "t2"⟩ :=
  ⟨fun r hr => absurd hr (List.not_mem_nil r),
   c8_upsert_second_call_wins [] "u" "f1" "f2" [("journal", some "J1")]
     [("journal", some "J2")] none none "t1" "t2"
     (fun r hr => absurd hr (List.not_mem_nil r))⟩

/-- C9: when the article-page fetch for a new item fails, that item's
processing creates no article record, still inserts a SeenRecord for its
uid, and the loop continues with the remaining items of the batch. -/
theorem c9_article_fetch_failure_isolated :
    ∀ (fu now : String) (it : Item) (rest : List (Item × FetchOutcome)) (st : PipelineState),
      (process_item fu it .failure now st).articles = st.articles ∧
      seenHas (process_item fu it .failure now st).seen ((dget it "_uid").getD "") = true ∧
      process_new_items fu now ((it, .failure) :: rest) st =
        ((process_new_items fu now rest (process_item fu it .failure now st)).1,
         ((dget it "_uid").getD "") ::
           (process_new_items fu now rest (process_item fu it .failure now st)).2) := by
  intro fu now it rest st
  refine ⟨rfl, ?_, rfl⟩
  exact seenHas_mark_seen st.seen ((dget it "_uid").getD "") fu
    ((dget it "link").getD "") (dget it "doi") (dget it "pub_date") now

/-- C10: an empty-string doi is falsy, so the `doi:` strategy is skipped and
the cascade falls through to id_like, then link, then the whole-item hash;
and every uid `compute_uid` produces has a nonempty payload after its
prefix. -/
theorem c10_empty_doi_falls_through :
    (∀ item : Item, dget item "doi" = some "" →
      truthyS (dget item "doi") = false ∧
      compute_uid item =
        (if truthyS (dget item "id_like") = true then
          "id:" ++ ((dget item "id_like").getD "")
        else if truthyS (dget item "link") = true then
          "linkhash:" ++ pyTake 16 (sha256hex ((dget item "link").getD ""))
        else "hash:" ++ pyTake 16 (sha256hex (jsonDumps item)))) ∧
    (∀ item : Item, ∃ pay : String, pay ≠ "" ∧
      (compute_uid item = "doi:" ++ pay ∨ compute_uid item = "id:" ++ pay ∨
       compute_uid item = "linkhash:" ++ pay ∨ compute_uid item = "hash:" ++ pay)) := by
  constructor
  · intro item h
    have hf : truthyS (dget item "doi") = false := by rw [h]; rfl
    refine ⟨hf, ?_⟩
    rw [compute_uid, if_neg]
    rw [hf]
    exact Bool.false_ne_true
  · intro item
    unfold compute_uid
    by_cases h1 : truthyS (dget item "doi") = true
    · rw [if_pos h1]
      obtain ⟨s, hs, hne⟩ := (truthyS_true_iff _).mp h1
      refine ⟨pyLower ((dget item "doi").getD ""), ?_, Or.inl rfl⟩
      rw [hs]
      simp only [Option.getD_some]
      exact pyLower_ne_empty s hne
    · rw [if_neg h1]
      by_cases h2 : truthyS (dget item "id_like") = true
      · rw [if_pos h2]
        obtain ⟨s, hs, hne⟩ := (truthyS_true_iff _).mp h2
        refine ⟨(dget item "id_like").getD "", ?_, Or.inr (Or.inl rfl)⟩
        rw [hs]
        simpa using hne
      · rw [if_neg h2]
        by_cases h3 : truthyS (dget item "link") = true
        · rw [if_pos h3]
          exact ⟨pyTake 16 (sha256hex ((dget item "link").getD "")),
            pyTake_sha_ne_empty _, Or.inr (Or.inr (Or.inl rfl))⟩
        · rw [if_neg h3]
          exact ⟨pyTake 16 (sha256hex (jsonDumps item)),
            pyTake_sha_ne_empty _, Or.inr (Or.inr (Or.inr rfl))⟩

/-- An item whose doi is present but empty, with a guid-like id. -/
def itemC10 : Item := [("doi", some ""), ("id_like", some "X")]

/-- C10 (witness): the empty-doi cascade instantiated at `itemC10`. -/
theorem c10_witness :
    dget itemC10 "doi" = some "" ∧
    (truthyS (dget itemC10 "doi") = false ∧
     compute_uid itemC10 =
       (if truthyS (dget itemC10 "id_like") = true then
         "id:" ++ ((dget itemC10 "id_like").getD "")
       else if truthyS (dget itemC10 "link") = true then
         "linkhash:" ++ pyTake 16 (sha256hex ((dget itemC10 "link").getD ""))
       else "hash:" ++ pyTake 16 (sha256hex (jsonDumps itemC10)))) :=
  ⟨by decide, c10_empty_doi_falls_through.1 itemC10 (by decide)⟩

end Rss
